import Mathlib

/-!
Shallow embedding of `scripts/process_releases.py` (GL.iNet MT6000 firmware
release processor) and proofs about its behaviour.

Modelling conventions:
- Python strings are Lean `String`s; character-level operations are expressed
  through the underlying `List Char` so that everything reduces by `decide`.
  The Python `str.upper` / `str.lower` / `str.title` methods are modelled for
  ASCII text (all stage names and checksums in this program are ASCII).
- The history file on disk is modelled by `StoreState`; its JSON content by
  the `Json` inductive.
- Network and subprocess outcomes are oracles (`Bool` parameters): the
  functions under verification are deterministic in them.  Side effects
  (HTTP GET, file write, running the `gh` CLI, file deletion) are recorded in
  an explicit `Effect` trace, in the order the Python code performs them.
- Floating point appears only in the cosmetic `size_mb` rendering inside the
  release body; it is modelled with exact rational (scaled-integer) rounding.
-/

namespace ProcessReleases

/-- Model of Python `str.upper()` for ASCII strings. -/
def upperAscii (s : String) : String := ⟨s.data.map Char.toUpper⟩

/-- Model of Python `str.lower()` for ASCII strings. -/
def lowerAscii (s : String) : String := ⟨s.data.map Char.toLower⟩

/-- Characters stripped by Python `str.strip()` / `str.rstrip()` (ASCII whitespace). -/
def isPyWs (c : Char) : Bool :=
  c = ' ' || c = '\t' || c = '\n' || c = '\r' || c = '\x0b' || c = '\x0c'

/-- Model of Python `str.strip()` on the character list. -/
def stripList (l : List Char) : List Char :=
  ((l.dropWhile isPyWs).reverse.dropWhile isPyWs).reverse

/-- Model of Python `str.rstrip()` on the character list. -/
def rstripList (l : List Char) : List Char :=
  (l.reverse.dropWhile isPyWs).reverse

/-- Model of Python `str.split("\n")`: splits on every newline, keeping empty
pieces, so the result always has one more piece than there are newlines. -/
def splitNl : List Char → List (List Char)
  | [] => [[]]
  | '\n' :: rest => [] :: splitNl rest
  | c :: rest =>
    match splitNl rest with
    | [] => [[c]]
    | line :: more => (c :: line) :: more

/-- Model of Python `str.title()` for ASCII: the first letter of each maximal
alphabetic run is uppercased, the others lowercased. -/
def titleListGo : Bool → List Char → List Char
  | _, [] => []
  | startWord, c :: rest =>
    if c.isAlpha then
      (if startWord then c.toUpper else c.toLower) :: titleListGo false rest
    else
      c :: titleListGo true rest

/-- Model of Python `str.title()` for ASCII strings. -/
def titleAscii (s : String) : String := ⟨titleListGo true s.data⟩

/-- JSON values, as produced by Python `json.load`. -/
inductive Json where
  | null
  | bool (b : Bool)
  | num (n : Int)
  | str (s : String)
  | arr (xs : List Json)
  | obj (fields : List (String × Json))

/-- State of the backing store behind `release_history.json`, restricted to
the states on which `load_release_history` returns normally: absent file,
`OSError` on open/read, readable UTF-8 that is not valid JSON, or decoded
JSON content.  A readable file whose bytes are not valid UTF-8 is a further
possible state on which the function does not return but raises; that state
and the escaping exception are modelled by `RawStoreState` and
`load_release_history_exc` below. -/
inductive StoreState where
  | missing
  | unreadable
  | invalid
  | content (j : Json)

/-- Embedding of `load_release_history` (process_releases.py lines 48-61):
missing file returns `[]`; `OSError` and `json.JSONDecodeError` are caught
(with a logged warning) and give `[]`; a decoded JSON list is returned as-is
(`isinstance(data, list)` checks only that it is a list, not its elements);
any other decoded value falls through to `return []`.  The function is total:
this models the code never raising. -/
def load_release_history : StoreState → List Json
  | StoreState.missing => []
  | StoreState.unreadable => []
  | StoreState.invalid => []
  | StoreState.content (Json.arr xs) => xs
  | StoreState.content Json.null => []
  | StoreState.content (Json.bool _) => []
  | StoreState.content (Json.num _) => []
  | StoreState.content (Json.str _) => []
  | StoreState.content (Json.obj _) => []

/-- Whether a JSON value is a string. -/
def isJsonStr : Json → Bool
  | Json.str _ => true
  | _ => false

/-- Second definition for the refinement comparison in claim C4, following the
spec's words rather than the source: "returns the persisted sequence of
checksums; returns empty sequence if the backing store is missing, unreadable,
or not a valid encoding of a sequence of strings". -/
def loadHistorySpec : StoreState → List Json
  | StoreState.content (Json.arr xs) => if xs.all isJsonStr then xs else []
  | _ => []

/-- Exception that can escape `load_release_history`: the file is opened with
`encoding="utf-8"`, so `json.load` reading bytes that are not valid UTF-8
raises `UnicodeDecodeError`, which the `except (json.JSONDecodeError,
OSError)` clause at line 58 does not catch. -/
inductive LoadException where
  | unicodeDecodeError
  deriving DecidableEq, Repr

/-- Byte-level state of the backing store, including the case `StoreState`
cannot represent: a readable file whose bytes are not valid UTF-8
(`undecodable`). -/
inductive RawStoreState where
  | missing
  | unreadable
  | undecodable
  | invalidJson
  | content (j : Json)

/-- Embedding of `load_release_history` (lines 48-61) over the byte-level
store model, with the escaping exception explicit: a missing file, an
`OSError`, and a caught `json.JSONDecodeError` all return `[]`; decoded JSON
content behaves as in `load_release_history`; but a readable file whose
bytes are not valid UTF-8 raises an uncaught `UnicodeDecodeError` that
propagates to the caller. -/
def load_release_history_exc : RawStoreState → Except LoadException (List Json)
  | RawStoreState.missing => Except.ok []
  | RawStoreState.unreadable => Except.ok []
  | RawStoreState.undecodable => Except.error LoadException.unicodeDecodeError
  | RawStoreState.invalidJson => Except.ok []
  | RawStoreState.content (Json.arr xs) => Except.ok xs
  | RawStoreState.content Json.null => Except.ok []
  | RawStoreState.content (Json.bool _) => Except.ok []
  | RawStoreState.content (Json.num _) => Except.ok []
  | RawStoreState.content (Json.str _) => Except.ok []
  | RawStoreState.content (Json.obj _) => Except.ok []

/-- Error raised by a failed history write (`OSError`, re-raised by the code). -/
inductive SaveError where
  | osError
  deriving DecidableEq, Repr

/-- Embedding of `save_release_history` (lines 64-71): opens the file in mode
"w" (truncating whatever was there) and writes the full list; an `OSError` is
logged and then re-raised, modelled by `Except.error`.  `writable` is the
oracle for whether the write can complete; `prior` is the store content being
overwritten (the result does not depend on it). -/
def save_release_history (writable : Bool) (history : List Json)
    (_prior : StoreState) : Except SaveError StoreState :=
  if writable then Except.ok (StoreState.content (Json.arr history))
  else Except.error SaveError.osError

/-- Embedding of `generate_release_tag` (lines 100-107). -/
def generate_release_tag (version stage : String) (compile_time : Nat) : String :=
  let stage_upper := upperAscii stage
  if stage_upper = "RELEASE" then
    "v" ++ version
  else
    "v" ++ version ++ "-" ++ lowerAscii stage ++ "-" ++ toString compile_time

/-- Gregorian date from a count of days since 1970-01-01 (the standard
era-based civil-from-days algorithm, restricted to nonnegative day counts). -/
def civilFromDays (z : Nat) : Nat × Nat × Nat :=
  let zc := z + 719468
  let era := zc / 146097
  let doe := zc % 146097
  let yoe := (doe - doe / 1460 + doe / 36524 - doe / 146096) / 365
  let y := yoe + era * 400
  let doy := doe - (365 * yoe + yoe / 4 - yoe / 100)
  let mp := (5 * doy + 2) / 153
  let d := doy - (153 * mp + 2) / 5 + 1
  let m := if mp < 10 then mp + 3 else mp - 9
  (if m ≤ 2 then y + 1 else y, m, d)

/-- Zero-padded two-digit decimal rendering. -/
def pad2 (n : Nat) : String := if n < 10 then "0" ++ toString n else toString n

/-- Zero-padded four-digit decimal rendering. -/
def pad4 (n : Nat) : String :=
  if n < 10 then "000" ++ toString n
  else if n < 100 then "00" ++ toString n
  else if n < 1000 then "0" ++ toString n
  else toString n

/-- Embedding of `format_timestamp` (lines 74-81) on nonnegative integer
timestamps: `datetime.datetime.fromtimestamp(ts, tz=utc).strftime("%Y-%m-%d
%H:%M:%S UTC")`.  The Python fallback branch that renders non-numeric or
out-of-range input as "Unknown" is not reachable from any claim checked here,
since every timestamp in the model is a `Nat`. -/
def format_timestamp (timestamp : Nat) : String :=
  let days := timestamp / 86400
  let secs := timestamp % 86400
  let ymd := civilFromDays days
  pad4 ymd.1 ++ "-" ++ pad2 ymd.2.1 ++ "-" ++ pad2 ymd.2.2 ++ " " ++
    pad2 (secs / 3600) ++ ":" ++ pad2 (secs % 3600 / 60) ++ ":" ++
    pad2 (secs % 60) ++ " UTC"

/-- One pass of Python `result.replace("\n\n\n", "\n\n")`: scans left to
right, replacing non-overlapping occurrences and continuing after each
replacement. -/
def replaceTripleNl : List Char → List Char
  | '\n' :: '\n' :: '\n' :: rest => '\n' :: '\n' :: replaceTripleNl rest
  | c :: rest => c :: replaceTripleNl rest
  | [] => []

/-- Model of Python `"\n\n\n" in result`. -/
def hasTripleNl : List Char → Bool
  | '\n' :: '\n' :: '\n' :: _ => true
  | _ :: rest => hasTripleNl rest
  | [] => false

/-- The `while "\n\n\n" in result` loop of `convert_html_to_markdown`,
with explicit fuel (each pass that finds an occurrence strictly shortens the
list, so fuel equal to the length always suffices to reach the fixpoint). -/
def collapseLoop : Nat → List Char → List Char
  | 0, l => l
  | fuel + 1, l => if hasTripleNl l then collapseLoop fuel (replaceTripleNl l) else l

/-- Embedding of `convert_html_to_markdown` (lines 84-97).  The external
`markdownify` library is an oracle parameter; `None` and the empty string are
both falsy in Python, yielding the fixed message. -/
def convert_html_to_markdown (markdownify : String → String)
    (html_content : Option String) : String :=
  match html_content with
  | none => "No release notes provided."
  | some h =>
    if h = "" then "No release notes provided."
    else
      let markdown := markdownify h
      let lines := splitNl (stripList markdown.data)
      let cleaned_lines := lines.map rstripList
      let result := List.intercalate ['\n'] cleaned_lines
      ⟨stripList (collapseLoop result.length result)⟩

/-- Module-level `MODEL = os.getenv("MODEL", "mt6000")`, at its default. -/
def MODEL : String := "mt6000"

/-- One element of a firmware entry's `download` array. -/
structure DownloadVariant where
  name : String
  link : String
  sha256 : String
  size : Nat
  compile_time : Nat
  deriving Inhabited, Repr, DecidableEq

/-- A firmware entry from the API's `info` array.  The code indexes
`firmware["download"][0]`; the model reads the first variant with `headI`. -/
structure Firmware where
  version : String
  stage : String
  release_note : Option String
  download : List DownloadVariant
  deriving Inhabited, Repr, DecidableEq

/-- Python `round(size_bytes / (1024*1024), 2)` as a count of hundredths of a
MiB, with exact rational round-half-to-even in place of binary floating
point. -/
def roundHundredthsMB (size_bytes : Nat) : Nat :=
  let n := size_bytes * 100
  let d := 1024 * 1024
  let q := n / d
  let r := n % d
  if 2 * r < d then q
  else if 2 * r > d then q + 1
  else if q % 2 = 0 then q else q + 1

/-- Decimal rendering of a hundredths count the way Python prints the rounded
float: at least one fractional digit, trailing zero of the second digit
dropped (`1.0`, `26.1`, `26.12`, `26.05`). -/
def hundredthsRepr (h : Nat) : String :=
  let ip := h / 100
  let fp := h % 100
  if fp = 0 then toString ip ++ ".0"
  else if fp % 10 = 0 then toString ip ++ "." ++ toString (fp / 10)
  else if fp < 10 then toString ip ++ ".0" ++ toString fp
  else toString ip ++ "." ++ toString fp

/-- Embedding of `generate_release_body` (lines 110-155): the release body
f-string, with the same interpolations in the same places. -/
def generate_release_body (markdownify : String → String)
    (firmware : Firmware) (download_info : DownloadVariant) : String :=
  let version := firmware.version
  let stage := upperAscii firmware.stage
  let compile_time := download_info.compile_time
  let size_bytes := download_info.size
  let sha256 := download_info.sha256
  let filename := download_info.name
  let size_mb := hundredthsRepr (roundHundredthsMB size_bytes)
  let formatted_time := format_timestamp compile_time
  let release_notes := convert_html_to_markdown markdownify firmware.release_note
  let title := "GL-MT6000 " ++ titleAscii stage ++ " " ++ version
  let title := if stage ≠ "RELEASE" then title ++ " (" ++ formatted_time ++ ")" else title
  "# " ++ title ++ "\n\n" ++ release_notes ++
    "\n\n---\n\n### Firmware Details\n\n| Property | Value |\n| :--- | :--- |\n| **Model** | " ++
    MODEL ++ " |\n| **Version** | " ++ version ++ " |\n| **Channel** | " ++
    stage ++ " |\n| **Compile Time** | " ++ formatted_time ++
    " |\n| **File Size** | " ++ size_mb ++ " MB |\n| **SHA256** | `" ++
    sha256 ++ "` |\n\n### Verification\n\nVerify the downloaded file integrity:\n\n```bash\necho \"" ++
    sha256 ++ "  " ++ filename ++ "\" | sha256sum -c -\n```\n"

/-- Observable side effects of the publisher, in execution order. -/
inductive Effect where
  | httpGet (url : String)
  | writeFile (name : String)
  | runGh (args : List String)
  | deleteFile (name : String)
  deriving Repr, DecidableEq

/-- Embedding of `download_firmware` (lines 158-174): a streamed GET writing
the body to `filename`; a `requests.RequestException` is caught and reported
as `False`.  `ok` is the oracle for the transfer outcome.  The failure case
records no write: this models the exception raised by `requests.get` or
`raise_for_status` before the file is opened; an exception raised mid-stream
by `iter_content` can additionally leave a partially written file behind,
which no theorem below depends on (they fix `ok = true` on the download). -/
def download_firmware (ok : Bool) (url filename : String) : List Effect × Bool :=
  if ok then ([Effect.httpGet url, Effect.writeFile filename], true)
  else ([Effect.httpGet url], false)

/-- Environment as seen through `os.environ.get("GITHUB_REPOSITORY")`. -/
structure Env where
  github_repository : Option String
  deriving Repr, DecidableEq

/-- Python falsiness of `os.environ.get(...)`: unset (`None`) or empty. -/
def envRepoFalsy : Option String → Bool
  | none => true
  | some s => s = ""

/-- Embedding of `create_github_release` (lines 177-231), with the sequence of
side effects made explicit.  Mirrors the code's order: tag and title are
rendered, then the firmware is downloaded; if the download succeeds the body
is rendered and `GITHUB_REPOSITORY` is read — if it is unset or empty the
function logs an error and returns `False` (with the downloaded file left in
place); otherwise the `gh release create` command is run with `--latest`
always in its argument list, and the local file is deleted whether the
command succeeds or raises `CalledProcessError`. -/
def create_github_release (env : Env) (markdownify : String → String)
    (downloadOk ghOk : Bool) (firmware : Firmware)
    (download_info : DownloadVariant) : List Effect × Bool :=
  let version := firmware.version
  let stage := upperAscii firmware.stage
  let compile_time := download_info.compile_time
  let filename := download_info.name
  let url := download_info.link
  let tag_name := generate_release_tag version stage compile_time
  let release_title := "GL-MT6000 " ++ titleAscii stage ++ " " ++ version
  let release_title :=
    if stage ≠ "RELEASE" then
      release_title ++ " (" ++ format_timestamp compile_time ++ ")"
    else release_title
  let dl := download_firmware downloadOk url filename
  if dl.2 = false then (dl.1, false)
  else
    let release_body := generate_release_body markdownify firmware download_info
    match env.github_repository with
    | none => (dl.1, false)
    | some github_repo =>
      if github_repo = "" then (dl.1, false)
      else
        let cmd := ["gh", "release", "create", tag_name, filename,
                    "--title", release_title, "--notes", release_body,
                    "--repo", github_repo, "--latest"]
        if ghOk then (dl.1 ++ [Effect.runGh cmd, Effect.deleteFile filename], true)
        else (dl.1 ++ [Effect.runGh cmd, Effect.deleteFile filename], false)

/-- The `gh` invocations recorded in an effect trace. -/
def ghCommands (effects : List Effect) : List (List String) :=
  effects.filterMap fun e =>
    match e with
    | Effect.runGh args => some args
    | _ => none

/-- Python `j == s` for a JSON value against a string: equality holds only
when the value is that string (comparisons across types are `False`). -/
def jsonEqStr (j : Json) (s : String) : Bool :=
  match j with
  | Json.str t => t = s
  | _ => false

/-- Python `sha256 in history` where `history` came from `json.load`:
membership by `==` against each element. -/
def jsonStrMem (s : String) : List Json → Bool
  | [] => false
  | j :: rest => jsonEqStr j s || jsonStrMem s rest

/-- Per-entry result of the orchestrator loop (spec: SKIPPED | PUBLISHED |
FAILED). -/
inductive Outcome where
  | skipped
  | published
  | failed
  deriving Repr, DecidableEq

/-- Orchestrator-level events, in execution order: the `continue` on a
history hit, the call into `create_github_release` (which immediately invokes
the downloader), its boolean result, the `history.append`, and the
`save_release_history` call with the list it persists. -/
inductive OEvent where
  | skip (sha : String)
  | invokePublisher (sha : String)
  | publishResult (sha : String) (ok : Bool)
  | appendHistory (sha : String)
  | saveHistory (h : List Json)

/-- Everything observable about one run of the per-entry loop. -/
structure RunResult where
  outcomes : List (Firmware × Outcome)
  trace : List OEvent
  history : List Json
  releases_created : Nat

/-- Embedding of the per-entry loop of `process_firmware_releases`
(lines 262-277), over the already-sorted list: each entry's primary variant
checksum is tested against the in-memory history; a hit skips the entry;
otherwise `create_github_release` is invoked (abstracted by the oracle `pub`,
its boolean return value), and exactly on success the checksum is appended
and the updated history saved before the next entry is handled. -/
def runLoop (pub : Firmware → DownloadVariant → Bool) :
    List Firmware → List Json → RunResult
  | [], history => ⟨[], [], history, 0⟩
  | firmware :: rest, history =>
    let download_info := firmware.download.headI
    let sha256 := download_info.sha256
    if jsonStrMem sha256 history then
      let r := runLoop pub rest history
      ⟨(firmware, Outcome.skipped) :: r.outcomes,
        OEvent.skip sha256 :: r.trace, r.history, r.releases_created⟩
    else if pub firmware download_info then
      let h1 := history ++ [Json.str sha256]
      let r := runLoop pub rest h1
      ⟨(firmware, Outcome.published) :: r.outcomes,
        OEvent.invokePublisher sha256 :: OEvent.publishResult sha256 true ::
          OEvent.appendHistory sha256 :: OEvent.saveHistory h1 :: r.trace,
        r.history, r.releases_created + 1⟩
    else
      let r := runLoop pub rest history
      ⟨(firmware, Outcome.failed) :: r.outcomes,
        OEvent.invokePublisher sha256 :: OEvent.publishResult sha256 false :: r.trace,
        r.history, r.releases_created⟩

/-- Sort key of `sorted(firmware_list, key=lambda x: x["download"][0]["compile_time"])`. -/
def sortKey (firmware : Firmware) : Nat := firmware.download.headI.compile_time

/-- Embedding of the `sorted(...)` call (lines 254-257).  Python's `sorted`
is a stable ascending sort by the key; `List.mergeSort` with the same key is
also stable, so the two agree on every input. -/
def sortFirmware (l : List Firmware) : List Firmware :=
  l.mergeSort (fun a b => sortKey a ≤ sortKey b)

/-- The publisher oracle induced by `create_github_release`: its boolean
return value, given the per-entry download and command outcomes. -/
def pubOf (env : Env) (markdownify : String → String)
    (dOk gOk : Firmware → Bool) : Firmware → DownloadVariant → Bool :=
  fun firmware download_info =>
    (create_github_release env markdownify (dOk firmware) (gOk firmware)
      firmware download_info).2

/-- Embedding of `process_firmware_releases` (lines 252-279): sort the
catalog, load the history, run the per-entry loop. -/
def process_firmware_releases (env : Env) (markdownify : String → String)
    (dOk gOk : Firmware → Bool) (store : StoreState)
    (firmware_list : List Firmware) : RunResult :=
  runLoop (pubOf env markdownify dOk gOk) (sortFirmware firmware_list)
    (load_release_history store)

/-- Embedding of `main` (lines 282-299).  `fetched` models
`fetch_firmware_data()`: `none` is a request/parse failure (the function
returns `None`, which is falsy, as is an empty response object); `some none`
is a response without the "info" field; `some (some info)` is a usable
response.  The run returns 1 only in the first two cases; otherwise the
releases are processed and the result is 0 regardless of per-entry
failures. -/
def main (env : Env) (markdownify : String → String)
    (dOk gOk : Firmware → Bool) (store : StoreState)
    (fetched : Option (Option (List Firmware))) : Nat :=
  match fetched with
  | none => 1
  | some none => 1
  | some (some info) =>
    let _ := process_firmware_releases env markdownify dOk gOk store info
    0

/-- Every `appendHistory` event in a trace is immediately followed by a
`saveHistory` event whose persisted list contains the appended checksum. -/
def appendsSaved : List OEvent → Prop
  | [] => True
  | OEvent.appendHistory sha :: OEvent.saveHistory h :: rest =>
    Json.str sha ∈ h ∧ appendsSaved rest
  | OEvent.appendHistory _ :: _ => False
  | _ :: rest => appendsSaved rest

/-! Concrete fixtures used by witnesses and counterexamples. -/

/-- A snapshot-channel download variant (1 MiB, compile time 2025-12-18). -/
def snapVariant : DownloadVariant :=
  ⟨"openwrt-mt6000.bin", "https://example.com/fw.bin", "abc123", 1048576, 1766075084⟩

/-- A snapshot-channel firmware entry. -/
def snapFirmware : Firmware := ⟨"4.8.4", "SNAPSHOT", none, [snapVariant]⟩

/-- A release-channel download variant. -/
def relVariant : DownloadVariant :=
  ⟨"openwrt-rel.bin", "https://example.com/rel.bin", "feed01", 2097152, 100⟩

/-- A release-channel firmware entry. -/
def relFirmware : Firmware := ⟨"4.8.2", "RELEASE", none, [relVariant]⟩

/-- Environment with `GITHUB_REPOSITORY` set. -/
def okEnv : Env := ⟨some "owner/repo"⟩

/-- Environment with `GITHUB_REPOSITORY` unset. -/
def noRepoEnv : Env := ⟨none⟩

/-- Two firmware entries whose primary variants share the same checksum. -/
def dupVariantA : DownloadVariant := ⟨"a.bin", "https://example.com/a.bin", "dd", 16, 100⟩

/-- Second variant with the same checksum as `dupVariantA` but a later build. -/
def dupVariantB : DownloadVariant := ⟨"b.bin", "https://example.com/b.bin", "dd", 16, 200⟩

/-- Entry carrying `dupVariantA`. -/
def dupFirmwareA : Firmware := ⟨"1.0", "release", none, [dupVariantA]⟩

/-- Entry carrying `dupVariantB`. -/
def dupFirmwareB : Firmware := ⟨"1.1", "snapshot", none, [dupVariantB]⟩

/-! Helper lemmas about history membership and the orchestrator loop. -/

theorem jsonStrMem_append (s : String) (l₁ l₂ : List Json) :
    jsonStrMem s (l₁ ++ l₂) = (jsonStrMem s l₁ || jsonStrMem s l₂) := by
  induction l₁ with
  | nil => simp [jsonStrMem]
  | cons j rest ih => simp [jsonStrMem, ih, Bool.or_assoc]

theorem jsonStrMem_appended_self (s : String) (l : List Json) :
    jsonStrMem s (l ++ [Json.str s]) = true := by
  rw [jsonStrMem_append]
  simp [jsonStrMem, jsonEqStr]

theorem runLoop_outcomes_fst (pub : Firmware → DownloadVariant → Bool)
    (l : List Firmware) : ∀ h : List Json,
    (runLoop pub l h).outcomes.map Prod.fst = l := by
  induction l with
  | nil => intro h; rfl
  | cons fw rest ih =>
    intro h
    by_cases hmem : jsonStrMem fw.download.headI.sha256 h = true
    · simp [runLoop, hmem, ih]
    · by_cases hpub : pub fw fw.download.headI = true
      · simp [runLoop, hmem, hpub, ih]
      · simp [runLoop, hmem, hpub, ih]

theorem runLoop_skip_of_mem (pub : Firmware → DownloadVariant → Bool)
    (l : List Firmware) : ∀ (h : List Json) (i : Nat) (p : Firmware × Outcome),
    (runLoop pub l h).outcomes[i]? = some p →
    jsonStrMem p.1.download.headI.sha256 h = true →
    p.2 = Outcome.skipped := by
  induction l with
  | nil => intro h i p hp _; simp [runLoop] at hp
  | cons fw rest ih =>
    intro h i p hp hmem'
    by_cases hmem : jsonStrMem fw.download.headI.sha256 h = true
    · simp only [runLoop, hmem, if_true] at hp
      cases i with
      | zero =>
        obtain rfl : (fw, Outcome.skipped) = p := by simpa using hp
        rfl
      | succ i =>
        simp only [List.getElem?_cons_succ] at hp
        exact ih h i p hp hmem'
    · by_cases hpub : pub fw fw.download.headI = true
      · simp only [runLoop, hmem, hpub, if_false, if_true, Bool.false_eq_true] at hp
        cases i with
        | zero =>
          obtain rfl : (fw, Outcome.published) = p := by simpa using hp
          exact absurd hmem' hmem
        | succ i =>
          simp only [List.getElem?_cons_succ] at hp
          refine ih (h ++ [Json.str fw.download.headI.sha256]) i p hp ?_
          rw [jsonStrMem_append, hmem']
          rfl
      · simp only [runLoop, hmem, hpub, if_false, Bool.false_eq_true] at hp
        cases i with
        | zero =>
          obtain rfl : (fw, Outcome.failed) = p := by simpa using hp
          exact absurd hmem' hmem
        | succ i =>
          simp only [List.getElem?_cons_succ] at hp
          exact ih h i p hp hmem'

theorem runLoop_pub_skip (pub : Firmware → DownloadVariant → Bool)
    (l : List Firmware) : ∀ (h : List Json) (i j : Nat) (p q : Firmware × Outcome),
    i < j →
    (runLoop pub l h).outcomes[i]? = some p →
    (runLoop pub l h).outcomes[j]? = some q →
    p.1.download.headI.sha256 = q.1.download.headI.sha256 →
    p.2 = Outcome.published →
    q.2 = Outcome.skipped := by
  induction l with
  | nil => intro h i j p q _ hp _ _ _; simp [runLoop] at hp
  | cons fw rest ih =>
    intro h i j p q hij hp hq hsha hpub'
    cases j with
    | zero => exact absurd hij (Nat.not_lt_zero i)
    | succ j =>
      by_cases hmem : jsonStrMem fw.download.headI.sha256 h = true
      · simp only [runLoop, hmem, if_true] at hp hq
        cases i with
        | zero =>
          obtain rfl : (fw, Outcome.skipped) = p := by simpa using hp
          exact absurd hpub' (by simp)
        | succ i =>
          simp only [List.getElem?_cons_succ] at hp hq
          exact ih h i j p q (by omega) hp hq hsha hpub'
      · by_cases hpub : pub fw fw.download.headI = true
        · simp only [runLoop, hmem, hpub, if_false, if_true, Bool.false_eq_true] at hp hq
          cases i with
          | zero =>
            obtain rfl : (fw, Outcome.published) = p := by simpa using hp
            simp only [List.getElem?_cons_succ] at hq
            refine runLoop_skip_of_mem pub rest _ j q hq ?_
            rw [← hsha]
            exact jsonStrMem_appended_self _ h
          | succ i =>
            simp only [List.getElem?_cons_succ] at hp hq
            exact ih _ i j p q (by omega) hp hq hsha hpub'
        · simp only [runLoop, hmem, hpub, if_false, Bool.false_eq_true] at hp hq
          cases i with
          | zero =>
            obtain rfl : (fw, Outcome.failed) = p := by simpa using hp
            exact absurd hpub' (by simp)
          | succ i =>
            simp only [List.getElem?_cons_succ] at hp hq
            exact ih h i j p q (by omega) hp hq hsha hpub'

theorem runLoop_all_skip (pub : Firmware → DownloadVariant → Bool)
    (l : List Firmware) : ∀ h : List Json,
    (∀ fw ∈ l, jsonStrMem fw.download.headI.sha256 h = true) →
    (runLoop pub l h).releases_created = 0 ∧
      ∀ e ∈ (runLoop pub l h).trace, ∃ s, e = OEvent.skip s := by
  induction l with
  | nil =>
    intro h _
    refine ⟨rfl, ?_⟩
    intro e he
    simp [runLoop] at he
  | cons fw rest ih =>
    intro h hall
    have hmem : jsonStrMem fw.download.headI.sha256 h = true := hall fw (by simp)
    have hrest := ih h fun g hg => hall g (by simp [hg])
    refine ⟨?_, ?_⟩
    · simp [runLoop, hmem, hrest.1]
    · intro e he
      simp only [runLoop, hmem, if_true, List.mem_cons] at he
      rcases he with rfl | he
      · exact ⟨_, rfl⟩
      · exact hrest.2 e he

theorem runLoop_appendsSaved (pub : Firmware → DownloadVariant → Bool)
    (l : List Firmware) : ∀ h : List Json,
    appendsSaved (runLoop pub l h).trace := by
  induction l with
  | nil => intro h; simp [runLoop, appendsSaved]
  | cons fw rest ih =>
    intro h
    by_cases hmem : jsonStrMem fw.download.headI.sha256 h = true
    · simpa [runLoop, hmem, appendsSaved] using ih h
    · by_cases hpub : pub fw fw.download.headI = true
      · simp only [runLoop, hmem, hpub, if_false, if_true, Bool.false_eq_true]
        show appendsSaved (OEvent.invokePublisher _ :: OEvent.publishResult _ true ::
          OEvent.appendHistory _ :: OEvent.saveHistory _ :: _)
        simp only [appendsSaved]
        exact ⟨by simp, ih _⟩
      · simpa [runLoop, hmem, hpub, appendsSaved] using ih h

theorem runLoop_append_iff (pub : Firmware → DownloadVariant → Bool)
    (l : List Firmware) : ∀ (h : List Json) (sha : String),
    OEvent.appendHistory sha ∈ (runLoop pub l h).trace ↔
      OEvent.publishResult sha true ∈ (runLoop pub l h).trace := by
  induction l with
  | nil => intro h sha; simp [runLoop]
  | cons fw rest ih =>
    intro h sha
    by_cases hmem : jsonStrMem fw.download.headI.sha256 h = true
    · simp [runLoop, hmem, ih h sha]
    · by_cases hpub : pub fw fw.download.headI = true
      · simp [runLoop, hmem, hpub, ih _ sha]
      · simp [runLoop, hmem, hpub, ih h sha]

theorem sortFirmware_sorted (l : List Firmware) :
    List.Pairwise (fun a b => sortKey a ≤ sortKey b) (sortFirmware l) := by
  have h := @List.sorted_mergeSort Firmware
    (fun a b => decide (sortKey a ≤ sortKey b))
    (by intro a b c h1 h2; simp at h1 h2 ⊢; omega)
    (by intro a b; simp; omega) l
  simpa [sortFirmware, List.Sorted] using h

theorem sortFirmware_perm (l : List Firmware) : List.Perm (sortFirmware l) l :=
  List.mergeSort_perm l _

/-! Claim theorems. -/

/-- C1 counterexample: for a SNAPSHOT entry — whose stage does not compare
case-insensitively equal to RELEASE — processed with the repository
configured and both oracles succeeding, the single `gh release create`
invocation still carries the `--latest` flag; the entry is not marked
not-latest. -/
theorem c1_counterexample :
    upperAscii snapFirmware.stage = "SNAPSHOT"
    ∧ (ghCommands (create_github_release okEnv (fun s => s) true true
        snapFirmware snapVariant).1).length = 1
    ∧ "--latest" ∈ (ghCommands (create_github_release okEnv (fun s => s) true true
        snapFirmware snapVariant).1).headI :=
  ⟨by decide, by decide, by decide⟩

/-- C1 amended: the `--latest` flag is passed on every `gh release create`
invocation, regardless of the entry's stage; non-RELEASE (TESTING, SNAPSHOT)
entries are therefore marked latest as well, never not-latest. -/
theorem c1_latest_flag_unconditional :
    ∀ (env : Env) (markdownify : String → String) (downloadOk ghOk : Bool)
      (firmware : Firmware) (download_info : DownloadVariant) (args : List String),
      Effect.runGh args ∈
        (create_github_release env markdownify downloadOk ghOk firmware download_info).1 →
      "--latest" ∈ args := by
  intro env md dOk gOk fw dl args hmem
  obtain ⟨repo⟩ := env
  cases dOk with
  | false => simp [create_github_release, download_firmware] at hmem
  | true =>
    cases repo with
    | none => simp [create_github_release, download_firmware] at hmem
    | some r =>
      by_cases hr : r = ""
      · simp [create_github_release, download_firmware, hr] at hmem
      · cases gOk with
        | true =>
          simp [create_github_release, download_firmware, hr] at hmem
          subst hmem
          simp
        | false =>
          simp [create_github_release, download_firmware, hr] at hmem
          subst hmem
          simp

set_option maxRecDepth 100000 in
/-- C1 witness: a concrete RELEASE-stage invocation whose command carries
`--latest`, obtained through the amended theorem. -/
theorem c1_witness :
    "--latest" ∈ (ghCommands (create_github_release okEnv (fun s => s) true true
      relFirmware relVariant).1).headI :=
  c1_latest_flag_unconditional okEnv (fun s => s) true true relFirmware relVariant
    ((ghCommands (create_github_release okEnv (fun s => s) true true
      relFirmware relVariant).1).headI)
    (by decide)

/-- C2 counterexample: with `GITHUB_REPOSITORY` unset, a run over one fetched
entry (all other oracles succeeding) attempts and completes the artifact
download before the configuration check fails, does not abort (the entry is
merely marked failed and the loop would continue), and the process exits 0,
not 1. -/
theorem c2_counterexample :
    main noRepoEnv (fun s => s) (fun _ => true) (fun _ => true) StoreState.missing
      (some (some [snapFirmware])) = 0
    ∧ (create_github_release noRepoEnv (fun s => s) true true snapFirmware snapVariant).1
      = [Effect.httpGet "https://example.com/fw.bin", Effect.writeFile "openwrt-mt6000.bin"]
    ∧ (create_github_release noRepoEnv (fun s => s) true true snapFirmware snapVariant).2
      = false :=
  ⟨rfl, by decide, by decide⟩

/-- C2 amended: when `GITHUB_REPOSITORY` is unset or empty, each publish
attempt fails only after the artifact download has been attempted and (when
the transfer succeeds) completed on disk; no release-creation command is run,
the entry is marked failed while the run continues, and the process exit
status is 0 whenever the catalog was fetched and carried an `info` field. -/
theorem c2_missing_repository :
    ∀ (env : Env) (markdownify : String → String) (ghOk : Bool)
      (firmware : Firmware) (download_info : DownloadVariant),
      envRepoFalsy env.github_repository = true →
      ((create_github_release env markdownify true ghOk firmware download_info).2 = false
      ∧ (create_github_release env markdownify true ghOk firmware download_info).1
        = [Effect.httpGet download_info.link, Effect.writeFile download_info.name]
      ∧ ∀ (dOk gOk : Firmware → Bool) (store : StoreState) (l : List Firmware),
          main env markdownify dOk gOk store (some (some l)) = 0) := by
  intro env md g fw dl hfalsy
  obtain ⟨repo⟩ := env
  cases repo with
  | none =>
    exact ⟨by simp [create_github_release, download_firmware],
      by simp [create_github_release, download_firmware], fun _ _ _ _ => rfl⟩
  | some r =>
    have hr : r = "" := by simpa [envRepoFalsy] using hfalsy
    subst hr
    exact ⟨by simp [create_github_release, download_firmware],
      by simp [create_github_release, download_firmware], fun _ _ _ _ => rfl⟩

/-- C2 witness: the amended theorem applied to a concrete unset-repository
run. -/
theorem c2_witness :
    (create_github_release noRepoEnv (fun s => s) true true snapFirmware snapVariant).2 = false
    ∧ main noRepoEnv (fun s => s) (fun _ => true) (fun _ => true) StoreState.missing
        (some (some [snapFirmware])) = 0 :=
  ⟨(c2_missing_repository noRepoEnv (fun s => s) true snapFirmware snapVariant rfl).1,
   (c2_missing_repository noRepoEnv (fun s => s) true snapFirmware snapVariant rfl).2.2
     (fun _ => true) (fun _ => true) StoreState.missing [snapFirmware]⟩

/-- C3 counterexample: with the repository configuration missing, an attempt
that has successfully downloaded the artifact returns without deleting it:
the effect trace contains the file write but no deletion. -/
theorem c3_counterexample :
    Effect.writeFile "openwrt-mt6000.bin" ∈
      (create_github_release noRepoEnv (fun s => s) true true snapFirmware snapVariant).1
    ∧ Effect.deleteFile "openwrt-mt6000.bin" ∉
      (create_github_release noRepoEnv (fun s => s) true true snapFirmware snapVariant).1 :=
  ⟨by decide, by decide⟩

/-- C3 amended: whenever the external command is reached (repository
configured and download succeeded) the artifact is deleted afterward on both
the success and the failure path — the deletion is the final recorded effect;
but on the missing- or empty-repository path, reached after a successful
download, the file is not deleted. -/
theorem c3_cleanup :
    ∀ (env : Env) (markdownify : String → String) (ghOk : Bool)
      (firmware : Firmware) (download_info : DownloadVariant),
      (∀ repo : String, env.github_repository = some repo → repo ≠ "" →
        (create_github_release env markdownify true ghOk firmware download_info).1.getLast?
          = some (Effect.deleteFile download_info.name))
      ∧ (envRepoFalsy env.github_repository = true →
          Effect.deleteFile download_info.name ∉
            (create_github_release env markdownify true ghOk firmware download_info).1) := by
  intro env md g fw dl
  obtain ⟨repo⟩ := env
  constructor
  · intro r hrepo hne
    have hr : repo = some r := hrepo
    subst hr
    cases g <;> simp [create_github_release, download_firmware, hne]
  · intro hfalsy
    cases repo with
    | none => simp [create_github_release, download_firmware]
    | some r =>
      have hr : r = "" := by simpa [envRepoFalsy] using hfalsy
      subst hr
      simp [create_github_release, download_firmware]

/-- C3 witness: the amended theorem applied on the failure path of the
command (repository configured) and on the missing-repository path. -/
theorem c3_witness :
    (create_github_release okEnv (fun s => s) true false snapFirmware snapVariant).1.getLast?
      = some (Effect.deleteFile "openwrt-mt6000.bin")
    ∧ Effect.deleteFile "openwrt-mt6000.bin" ∉
      (create_github_release noRepoEnv (fun s => s) true true snapFirmware snapVariant).1 :=
  ⟨(c3_cleanup okEnv (fun s => s) false snapFirmware snapVariant).1 "owner/repo" rfl
     (by decide),
   (c3_cleanup noRepoEnv (fun s => s) true snapFirmware snapVariant).2 rfl⟩

/-- C4 counterexample: two concrete store states refute the claim.  A store
holding the valid JSON array `[1]` — not an encoding of a sequence of
strings — makes `load_release_history` return that list as-is, not the empty
sequence the claim requires (the spec-following `loadHistorySpec` does
return `[]` there); and a readable store whose bytes are not valid UTF-8
makes the load raise an uncaught `UnicodeDecodeError` instead of returning
at all, refuting "never raises". -/
theorem c4_counterexample :
    load_release_history (StoreState.content (Json.arr [Json.num 1])) = [Json.num 1]
    ∧ loadHistorySpec (StoreState.content (Json.arr [Json.num 1])) = []
    ∧ isJsonStr (Json.num 1) = false
    ∧ Json.num 1 :: [] ≠ ([] : List Json)
    ∧ load_release_history_exc RawStoreState.undecodable
      = Except.error LoadException.unicodeDecodeError :=
  ⟨rfl, rfl, rfl, by simp, rfl⟩

/-- C4 amended: load returns the persisted list whenever the store content
decodes as UTF-8 and parses as a JSON array — its elements are returned
as-is even when they are not strings — and the empty sequence when the store
is missing, unreadable (`OSError`), or decodes but is not valid JSON or not
an array; however it does not never-raise: a readable history file whose
bytes are not valid UTF-8 raises an uncaught `UnicodeDecodeError` that
propagates to the caller, and that is the only store state on which the
function fails to return.  On every decoded content the byte-level model
agrees with `load_release_history`, the decoded-content model the pipeline
uses. -/
theorem c4_load_release_history :
    (∀ xs : List Json,
      load_release_history_exc (RawStoreState.content (Json.arr xs)) = Except.ok xs)
    ∧ load_release_history_exc RawStoreState.missing = Except.ok []
    ∧ load_release_history_exc RawStoreState.unreadable = Except.ok []
    ∧ load_release_history_exc RawStoreState.invalidJson = Except.ok []
    ∧ (∀ j : Json, (∀ xs : List Json, j ≠ Json.arr xs) →
        load_release_history_exc (RawStoreState.content j) = Except.ok [])
    ∧ load_release_history_exc RawStoreState.undecodable
      = Except.error LoadException.unicodeDecodeError
    ∧ (∀ st : RawStoreState, st = RawStoreState.undecodable
        ∨ ∃ xs : List Json, load_release_history_exc st = Except.ok xs)
    ∧ ∀ j : Json, load_release_history_exc (RawStoreState.content j)
        = Except.ok (load_release_history (StoreState.content j)) := by
  refine ⟨fun xs => rfl, rfl, rfl, rfl, ?_, rfl, ?_, ?_⟩
  · intro j hj
    cases j with
    | arr xs => exact absurd rfl (hj xs)
    | null => rfl
    | bool b => rfl
    | num n => rfl
    | str s => rfl
    | obj f => rfl
  · intro st
    cases st with
    | missing => exact Or.inr ⟨[], rfl⟩
    | unreadable => exact Or.inr ⟨[], rfl⟩
    | undecodable => exact Or.inl rfl
    | invalidJson => exact Or.inr ⟨[], rfl⟩
    | content j =>
      cases j with
      | arr xs => exact Or.inr ⟨xs, rfl⟩
      | null => exact Or.inr ⟨[], rfl⟩
      | bool b => exact Or.inr ⟨[], rfl⟩
      | num n => exact Or.inr ⟨[], rfl⟩
      | str s => exact Or.inr ⟨[], rfl⟩
      | obj f => exact Or.inr ⟨[], rfl⟩
  · intro j
    cases j with
    | arr xs => rfl
    | null => rfl
    | bool b => rfl
    | num n => rfl
    | str s => rfl
    | obj f => rfl

/-- C4 witness: the amended theorem applied to a concrete array store and a
concrete non-array store. -/
theorem c4_witness :
    load_release_history_exc (RawStoreState.content (Json.arr [Json.str "aa", Json.num 2]))
      = Except.ok [Json.str "aa", Json.num 2]
    ∧ load_release_history_exc (RawStoreState.content (Json.num 3)) = Except.ok [] :=
  ⟨c4_load_release_history.1 [Json.str "aa", Json.num 2],
   c4_load_release_history.2.2.2.2.1 (Json.num 3) fun _ h => Json.noConfusion h⟩

/-- C5: an entry whose primary checksum is in the loaded history is skipped —
the loop reaches neither the downloader nor the publisher for it — and when
every catalog entry's primary checksum is already in the loaded history the
run creates zero releases and its trace consists of skip events only. -/
theorem c5_skip_already_released :
    ∀ (env : Env) (markdownify : String → String) (dOk gOk : Firmware → Bool)
      (store : StoreState) (l : List Firmware),
      (∀ (i : Nat) (p : Firmware × Outcome),
        (process_firmware_releases env markdownify dOk gOk store l).outcomes[i]? = some p →
        jsonStrMem p.1.download.headI.sha256 (load_release_history store) = true →
        p.2 = Outcome.skipped)
      ∧ ((∀ fw ∈ l, jsonStrMem fw.download.headI.sha256 (load_release_history store) = true) →
          (process_firmware_releases env markdownify dOk gOk store l).releases_created = 0
          ∧ ∀ e ∈ (process_firmware_releases env markdownify dOk gOk store l).trace,
              ∃ s, e = OEvent.skip s) := by
  intro env md dOk gOk store l
  constructor
  · intro i p hp hmem
    exact runLoop_skip_of_mem _ _ _ i p hp hmem
  · intro hall
    refine runLoop_all_skip _ _ _ ?_
    intro fw hfw
    exact hall fw ((sortFirmware_perm l).mem_iff.mp hfw)

unseal List.merge List.mergeSort in
/-- C5 witness: a rerun over a catalog whose only entry's checksum is already
in the stored history skips the entry and creates zero releases. -/
theorem c5_witness :
    ((snapFirmware, Outcome.skipped) : Firmware × Outcome).2 = Outcome.skipped
    ∧ (process_firmware_releases okEnv (fun s => s) (fun _ => true) (fun _ => true)
        (StoreState.content (Json.arr [Json.str "abc123"])) [snapFirmware]).releases_created
      = 0 :=
  ⟨(c5_skip_already_released okEnv (fun s => s) (fun _ => true) (fun _ => true)
      (StoreState.content (Json.arr [Json.str "abc123"])) [snapFirmware]).1 0
      (snapFirmware, Outcome.skipped) (by decide) (by decide),
   ((c5_skip_already_released okEnv (fun s => s) (fun _ => true) (fun _ => true)
      (StoreState.content (Json.arr [Json.str "abc123"])) [snapFirmware]).2
      (by decide)).1⟩

/-- C6: in every run, each history append is immediately followed by a save
whose persisted list contains the appended checksum (so the checksum is
durably recorded before the next entry is handled), and an append for a
checksum occurs in the trace exactly when the publisher reported success for
that checksum. -/
theorem c6_append_iff_success :
    ∀ (env : Env) (markdownify : String → String) (dOk gOk : Firmware → Bool)
      (store : StoreState) (l : List Firmware),
      appendsSaved (process_firmware_releases env markdownify dOk gOk store l).trace
      ∧ ∀ sha : String,
          OEvent.appendHistory sha ∈
            (process_firmware_releases env markdownify dOk gOk store l).trace ↔
          OEvent.publishResult sha true ∈
            (process_firmware_releases env markdownify dOk gOk store l).trace := by
  intro env md dOk gOk store l
  exact ⟨runLoop_appendsSaved _ _ _, fun sha => runLoop_append_iff _ _ _ sha⟩

/-- C7: the orchestrator processes exactly the sorted catalog — the
per-entry outcomes are aligned with `sortFirmware`, which is pairwise
non-decreasing on the primary variant's compile time and a permutation of
the input list, whatever order the API returned. -/
theorem c7_chronological_order :
    ∀ (env : Env) (markdownify : String → String) (dOk gOk : Firmware → Bool)
      (store : StoreState) (l : List Firmware),
      (process_firmware_releases env markdownify dOk gOk store l).outcomes.map Prod.fst
        = sortFirmware l
      ∧ List.Pairwise (fun a b => sortKey a ≤ sortKey b) (sortFirmware l)
      ∧ List.Perm (sortFirmware l) l := by
  intro env md dOk gOk store l
  exact ⟨runLoop_outcomes_fst _ _ _, sortFirmware_sorted l, sortFirmware_perm l⟩

/-- C8: save persists the full given sequence, overwriting whatever the
store held before, and a write that cannot complete is propagated as an
error rather than silently swallowed. -/
theorem c8_save_release_history :
    ∀ (writable : Bool) (history : List Json) (prior : StoreState),
      (writable = true →
        save_release_history writable history prior =
          Except.ok (StoreState.content (Json.arr history)))
      ∧ (writable = false →
        save_release_history writable history prior =
          Except.error SaveError.osError) := by
  intro w h st
  refine ⟨?_, ?_⟩ <;> intro hw <;> subst hw <;> rfl

/-- C8 witness: a concrete successful overwrite and a concrete propagated
write failure, both through the theorem. -/
theorem c8_witness :
    save_release_history true [Json.str "aa"] StoreState.missing =
      Except.ok (StoreState.content (Json.arr [Json.str "aa"]))
    ∧ save_release_history false [] StoreState.invalid =
      Except.error SaveError.osError :=
  ⟨(c8_save_release_history true [Json.str "aa"] StoreState.missing).1 rfl,
   (c8_save_release_history false [] StoreState.invalid).2 rfl⟩

/-- C9: `generate_release_tag` yields `v{version}` exactly when the stage
uppercases to RELEASE, and `v{version}-{lowercased stage}-{compile time}`
otherwise, including the two concrete examples from the spec. -/
theorem c9_generate_release_tag :
    (∀ (version stage : String) (compile_time : Nat),
      upperAscii stage = "RELEASE" →
      generate_release_tag version stage compile_time = "v" ++ version)
    ∧ (∀ (version stage : String) (compile_time : Nat),
      upperAscii stage ≠ "RELEASE" →
      generate_release_tag version stage compile_time =
        "v" ++ version ++ "-" ++ lowerAscii stage ++ "-" ++ toString compile_time)
    ∧ generate_release_tag "4.8.2" "RELEASE" 1766075084 = "v4.8.2"
    ∧ generate_release_tag "4.8.4" "snapshot" 1766075084 = "v4.8.4-snapshot-1766075084" := by
  refine ⟨?_, ?_, by decide, by decide⟩
  · intro v s c hs
    simp [generate_release_tag, hs]
  · intro v s c hs
    simp [generate_release_tag, hs]

/-- C9 witness: both branches of the theorem at concrete inputs, including a
mixed-case RELEASE spelling. -/
theorem c9_witness :
    generate_release_tag "4.8.2" "Release" 5 = "v" ++ "4.8.2"
    ∧ generate_release_tag "1.0" "TESTING" 7 =
      "v" ++ "1.0" ++ "-" ++ lowerAscii "TESTING" ++ "-" ++ toString 7 :=
  ⟨c9_generate_release_tag.1 "4.8.2" "Release" 5 (by decide),
   c9_generate_release_tag.2.1 "1.0" "TESTING" 7 (by decide)⟩

/-- C10: within one run, if two positions of the processed sequence share the
same primary-variant checksum and the earlier one is published, the later one
is skipped — the membership test runs against the in-memory history already
extended by the appends made earlier in the same run. -/
theorem c10_intra_run_dedup :
    ∀ (env : Env) (markdownify : String → String) (dOk gOk : Firmware → Bool)
      (store : StoreState) (l : List Firmware) (i j : Nat) (p q : Firmware × Outcome),
      i < j →
      (process_firmware_releases env markdownify dOk gOk store l).outcomes[i]? = some p →
      (process_firmware_releases env markdownify dOk gOk store l).outcomes[j]? = some q →
      p.1.download.headI.sha256 = q.1.download.headI.sha256 →
      p.2 = Outcome.published →
      q.2 = Outcome.skipped := by
  intro env md dOk gOk store l i j p q hij hp hq hsha hpub
  exact runLoop_pub_skip _ _ _ i j p q hij hp hq hsha hpub

unseal List.merge List.mergeSort in
set_option maxRecDepth 100000 in
/-- C10 witness: a catalog with two entries sharing a checksum, empty
history, everything succeeding — the first is published, and the theorem
yields that the second is skipped. -/
theorem c10_witness :
    (process_firmware_releases okEnv (fun s => s) (fun _ => true) (fun _ => true)
      StoreState.missing [dupFirmwareA, dupFirmwareB]).outcomes[0]?
      = some (dupFirmwareA, Outcome.published)
    ∧ ((dupFirmwareB, Outcome.skipped) : Firmware × Outcome).2 = Outcome.skipped :=
  ⟨by decide,
   c10_intra_run_dedup okEnv (fun s => s) (fun _ => true) (fun _ => true)
     StoreState.missing [dupFirmwareA, dupFirmwareB] 0 1
     (dupFirmwareA, Outcome.published) (dupFirmwareB, Outcome.skipped)
     (by omega) (by decide) (by decide) (by decide) rfl⟩

end ProcessReleases
